import Mathlib

/-!
Verification development for the librespot token broker (src/core/src/token.rs)
and the availability-rule evaluator (src/metadata/src/audio/item.rs).

Modelling conventions:
* Time is a monotonic clock modelled as a natural number of seconds
  (every duration in the source is a whole number of seconds; `Instant`
  values are the clock readings, `Duration` values are second counts).
* Rust `Duration` subtraction panics on underflow; it is modelled as an
  `Option Nat` so that `none` marks the panic.
* The Mercury issuer channel is abstracted as an oracle argument: the
  `Option MercuryResponse` that a fetch would produce (`none` is a
  transport-level failure of `request.await?`).
* JSON deserialization of the wire payload (serde) is out of the core per
  the design; a payload byte string is modelled by what the two decoding
  stages would yield: not-UTF-8, UTF-8 but not well-formed JSON, or a
  well-formed JSON document given as an abstract syntax tree.
* The source has a single error value `MercuryError` returned from several
  distinct sites, and two reachable panics; the `Outcome` type distinguishes
  the return sites (each `err*` constructor is `Err(MercuryError)` in the
  source) and records panics with their message.
-/

/-- A JSON value, as produced by a successful `serde_json` parse.  Numbers are
modelled as integers (the only numeric field consumed, `expiresIn`, is a
`u64`). -/
inductive Json where
  | num (n : Int)
  | str (s : String)
  | arr (elems : List Json)
  | obj (fields : List (String × Json))
  | bool (b : Bool)
  | null

/-- The result of running `serde_json::from_slice` on a UTF-8 body:
either the body is not well-formed JSON, or it is the given document. -/
inductive JsonDoc where
  | invalid
  | val (j : Json)

/-- One element of the Mercury response payload (a byte string), modelled by
what decoding would give: invalid UTF-8 (`String::from_utf8` fails, so the
`unwrap` in `get_token` panics), or a UTF-8 body abstracted by its JSON
parse. -/
inductive RawPayload where
  | malformed
  | text (doc : JsonDoc)

/-- Mercury response: a status code and an ordered payload collection. -/
structure MercuryResponse where
  status_code : Nat
  payload : List RawPayload

/-- The deserialized wire payload (struct `TokenData`, camelCase field names
`expiresIn`, `accessToken`, `scope`). -/
structure TokenData where
  expires_in : Nat
  access_token : String
  scope : List String
  deriving DecidableEq

/-- The cached token value (struct `Token`). `timestamp` is the `Instant`
captured at construction, `expires_in` the claimed lifetime in seconds. -/
structure Token where
  expires_in : Nat
  access_token : String
  scopes : List String
  timestamp : Nat
  deriving DecidableEq

/-- First-occurrence lookup of a field in a JSON object. -/
def lookupField : List (String × Json) → String → Option Json
  | [], _ => none
  | (k, v) :: rest, key => if k == key then some v else lookupField rest key

/-- serde decode of a `u64` field: a nonnegative integer below 2^64. -/
def asU64 : Json → Option Nat
  | .num n => if 0 ≤ n ∧ n < 2 ^ 64 then some n.toNat else none
  | _ => none

/-- serde decode of a `String` field. -/
def asString : Json → Option String
  | .str s => some s
  | _ => none

/-- serde decode of a `Vec<String>` element list. -/
def asStringList : List Json → Option (List String)
  | [] => some []
  | .str s :: rest => (asStringList rest).map (fun tl => s :: tl)
  | _ :: _ => none

/-- Derived `Deserialize` for `TokenData`: requires the three fields with the
right types; unknown fields are ignored. -/
def TokenData.fromJson (j : Json) : Option TokenData :=
  match j with
  | .obj fields => do
      let e ← lookupField fields "expiresIn" >>= asU64
      let a ← lookupField fields "accessToken" >>= asString
      let s ← match lookupField fields "scope" with
              | some (.arr elems) => asStringList elems
              | _ => none
      pure { expires_in := e, access_token := a, scope := s }
  | _ => none

/-- `Token::EXPIRY_THRESHOLD`: ten seconds. -/
def Token.EXPIRY_THRESHOLD : Nat := 10

/-- `Token::new(body)`: parse the body (abstracted by its JSON parse result)
into `TokenData` and stamp the current time.  `none` is the
`Err(Box<dyn Error>)` return. -/
def Token.new (body : JsonDoc) (now : Nat) : Option Token :=
  match body with
  | .invalid => none
  | .val j =>
      (TokenData.fromJson j).map fun data =>
        { expires_in := data.expires_in
          access_token := data.access_token
          scopes := data.scope
          timestamp := now }

/-- `Token::is_expired`: `timestamp + (expires_in - EXPIRY_THRESHOLD) < now`.
Rust `Duration` subtraction panics on underflow, so when
`expires_in < EXPIRY_THRESHOLD` the result is `none` (a panic), otherwise
`some` of the comparison. -/
def Token.is_expired (t : Token) (now : Nat) : Option Bool :=
  if t.expires_in < Token.EXPIRY_THRESHOLD then
    none
  else
    some (decide (t.timestamp + (t.expires_in - Token.EXPIRY_THRESHOLD) < now))

/-- The scan loop of `Token::in_scope` over the granted scopes. -/
def inScopeLoop (scope : String) : List String → Bool
  | [] => false
  | s :: rest => if s == scope then true else inScopeLoop scope rest

/-- `Token::in_scope`: linear scan of the granted scopes. -/
def Token.in_scope (t : Token) (scope : String) : Bool :=
  inScopeLoop scope t.scopes

/-- `Token::in_scopes`: every requested scope is granted. -/
def Token.in_scopes (t : Token) (scopes : List String) : Bool :=
  match scopes with
  | [] => true
  | s :: rest => if t.in_scope s then t.in_scopes rest else false

/-- The indexed scan of `TokenProvider::find_token`
(`for i in 0..len { if tokens[i].in_scopes(..) { return Some(i) } }`). -/
def findTokenLoop (scopes : List String) : List Token → Nat → Option Nat
  | [], _ => none
  | t :: rest, i => if t.in_scopes scopes then some i else findTokenLoop scopes rest (i + 1)

/-- `TokenProvider::find_token`: index of the first cached token covering the
requested scopes. -/
def find_token (tokens : List Token) (scopes : List String) : Option Nat :=
  findTokenLoop scopes tokens 0

/-- The observable outcome of a `get_token` call.  Each `err*` constructor is
an `Err(MercuryError)` return in the source, distinguished by return site;
`panicked` records a panic with its message. -/
inductive Outcome where
  | ok (t : Token)
  | errEmptyScope
  | errTransport
  | errRequestFailed
  | errParse
  | panicked (msg : String)
  deriving DecidableEq

/-- The fetch step of `get_token` (everything after the cache lookup): send
the request, then dispatch on the response.  Returns the outcome, the cache
after the step, and the number of issuer requests made (always one here).
A `200` response takes the first payload element (`expect` panics when the
collection is empty), decodes it as UTF-8 (`unwrap` panics when invalid),
parses it via `Token::new` (failure maps to `Err(MercuryError)`), and on
success appends the token to the cache. -/
def fetchStep (cache : List Token) (fetch : Option MercuryResponse) (now : Nat) :
    Outcome × List Token × Nat :=
  match fetch with
  | none => (.errTransport, cache, 1)
  | some response =>
    if response.status_code == 200 then
      match response.payload.head? with
      | none => (.panicked "No tokens received", cache, 1)
      | some .malformed => (.panicked "called Result::unwrap on an Err value: FromUtf8Error", cache, 1)
      | some (.text doc) =>
        match Token.new doc now with
        | none => (.errParse, cache, 1)
        | some token => (.ok token, cache ++ [token], 1)
    else
      (.errRequestFailed, cache, 1)

/-- `TokenProvider::get_token`: empty-scope rejection, first-match cache
lookup, expiry re-check with eviction, then fetch on miss or eviction.
`fetch` is the response oracle of the issuer channel; the third component
counts issuer requests. -/
def get_token (cache : List Token) (scopes : List String)
    (fetch : Option MercuryResponse) (now : Nat) : Outcome × List Token × Nat :=
  if scopes.isEmpty then
    (.errEmptyScope, cache, 0)
  else
    match find_token cache scopes with
    | some index =>
      match cache.get? index with
      | none => (.panicked "index out of bounds", cache, 0)
      | some cached_token =>
        match cached_token.is_expired now with
        | none => (.panicked "overflow when subtracting durations", cache, 0)
        | some true => fetchStep (cache.eraseIdx index) fetch now
        | some false => (.ok cached_token, cache, 0)
    | none => fetchStep cache fetch now

/-- Why an audio item is unavailable (`UnavailabilityReason`). -/
inductive UnavailabilityReason where
  | embargo
  | notWhitelisted
  | blacklisted
  deriving DecidableEq

/-- `AudioItemAvailability = Result<(), UnavailabilityReason>`. -/
abbrev AudioItemAvailability := Except UnavailabilityReason Unit

/-- One availability restriction: the catalogues it applies to, and an
optional country whitelist or blacklist. -/
structure Restriction where
  catalogue_strs : List String
  countries_allowed : Option (List String)
  countries_forbidden : Option (List String)
  deriving DecidableEq

/-- The user data consulted by the evaluator: the country and the attribute
map (a hash map with unique keys, modelled as an association list). -/
structure UserData where
  country : String
  attributes : List (String × String)
  deriving DecidableEq

/-- `user_data.attributes.get(key)`. -/
def lookupAttr : List (String × String) → String → Option String
  | [], _ => none
  | (k, v) :: rest, key => if k == key then some v else lookupAttr rest key

/-- The catalogue filter of `allowed_for_user`: the restriction applies when
its catalogue list mentions the user catalogue. -/
def catalogueMatches (user_catalogue : String) (r : Restriction) : Bool :=
  r.catalogue_strs.any (fun restricted_catalogue => restricted_catalogue == user_catalogue)

/-- The user catalogue resolution in `allowed_for_user`: the `catalogue`
attribute, defaulting to `premium` when absent. -/
def userCatalogue (user_data : UserData) : String :=
  match lookupAttr user_data.attributes "catalogue" with
  | some catalogue => catalogue
  | none => "premium"

/-- The loop body of `allowed_for_user` over the catalogue-filtered
restrictions: a whitelist decides first when present, else a blacklist
decides when present, else the next restriction is examined. -/
def allowedLoop (country : String) : List Restriction → AudioItemAvailability
  | [] => .ok ()
  | r :: rest =>
    match r.countries_allowed with
    | some allowed_countries =>
        if allowed_countries.any (fun allowed => country == allowed) then .ok ()
        else .error .notWhitelisted
    | none =>
      match r.countries_forbidden with
      | some forbidden_countries =>
          if forbidden_countries.any (fun forbidden => country == forbidden) then
            .error .blacklisted
          else .ok ()
      | none => allowedLoop country rest

/-- `allowed_for_user` (src/metadata/src/audio/item.rs): iterate over the
restrictions whose catalogue list contains the user catalogue. -/
def allowed_for_user (user_data : UserData) (restrictions : List Restriction) :
    AudioItemAvailability :=
  allowedLoop user_data.country
    (restrictions.filter (catalogueMatches (userCatalogue user_data)))

/-- A restriction that carries a whitelist or a blacklist; only such a
restriction can decide the outcome of the evaluator loop. -/
def restrictionDecides (r : Restriction) : Bool :=
  r.countries_allowed.isSome || r.countries_forbidden.isSome

/-- The decision a single restriction yields: whitelist membership first when
a whitelist is present, otherwise blacklist membership, otherwise allowed. -/
def applyRestriction (country : String) (r : Restriction) : AudioItemAvailability :=
  match r.countries_allowed with
  | some allowed_countries =>
      if allowed_countries.any (fun allowed => country == allowed) then .ok ()
      else .error .notWhitelisted
  | none =>
    match r.countries_forbidden with
    | some forbidden_countries =>
        if forbidden_countries.any (fun forbidden => country == forbidden) then
          .error .blacklisted
        else .ok ()
    | none => .ok ()

/-- Characterization of the evaluator loop: the first restriction carrying a
whitelist or a blacklist decides the outcome; restrictions with neither list
are skipped; with no deciding restriction the item is allowed. -/
def decideRestrictions (country : String) (rs : List Restriction) : AudioItemAvailability :=
  match rs.find? restrictionDecides with
  | none => .ok ()
  | some r => applyRestriction country r

/-! ## Concrete fixtures -/

/-- The round-trip payload of the spec: expiresIn 3600, accessToken abc,
scope a and b. -/
def payloadGood : Json :=
  .obj [("expiresIn", .num 3600), ("accessToken", .str "abc"),
        ("scope", .arr [.str "a", .str "b"])]

/-- The token parsed from `payloadGood` at time 0. -/
def tokGood : Token :=
  { expires_in := 3600, access_token := "abc", scopes := ["a", "b"], timestamp := 0 }

/-- A payload whose expiresIn (5) is below the 10-second threshold. -/
def payloadLow : Json :=
  .obj [("expiresIn", .num 5), ("accessToken", .str "abc"), ("scope", .arr [.str "a"])]

/-- The token parsed from `payloadLow` at time 0. -/
def tokLow : Token :=
  { expires_in := 5, access_token := "abc", scopes := ["a"], timestamp := 0 }

/-- A token granting scope a, issued at time 0 with lifetime 3600. -/
def tokA : Token :=
  { expires_in := 3600, access_token := "A", scopes := ["a"], timestamp := 0 }

/-- A token granting scope a, issued at time 10000 with lifetime 3600. -/
def tokB : Token :=
  { expires_in := 3600, access_token := "B", scopes := ["a"], timestamp := 10000 }

/-- A premium-catalogue restriction carrying neither whitelist nor blacklist. -/
def rNoLists : Restriction :=
  { catalogue_strs := ["premium"], countries_allowed := none, countries_forbidden := none }

/-- A premium-catalogue restriction blacklisting the country US. -/
def rBlacklistUS : Restriction :=
  { catalogue_strs := ["premium"], countries_allowed := none,
    countries_forbidden := some ["US"] }

/-! ## Helper lemmas -/

/-- The indexed scan finds exactly the first covering token: it returns
`some i` from start index `i0` iff `i` is `i0` plus the offset of the first
entry whose scopes cover the request. -/
theorem findTokenLoop_some_iff (scopes : List String) (l : List Token) :
    ∀ (i0 i : Nat),
      findTokenLoop scopes l i0 = some i ↔
        ∃ k, i = i0 + k ∧
          (∃ t, l.get? k = some t ∧ t.in_scopes scopes = true) ∧
          ∀ j t', j < k → l.get? j = some t' → t'.in_scopes scopes = false := by
  induction l with
  | nil =>
      intro i0 i
      simp [findTokenLoop]
  | cons t rest ih =>
      intro i0 i
      by_cases h : t.in_scopes scopes = true
      · constructor
        · intro hl
          have hi : i = i0 := by
            simp [findTokenLoop, h] at hl
            omega
          subst hi
          refine ⟨0, by omega, ⟨t, by simp, h⟩, ?_⟩
          intro j t' hj _
          omega
        · rintro ⟨k, hk, ⟨t', ht', hcov⟩, hmin⟩
          cases k with
          | zero =>
              simp [findTokenLoop, h]
              omega
          | succ k' =>
              have hcontra := hmin 0 t (Nat.succ_pos k') (by simp)
              rw [h] at hcontra
              exact absurd hcontra (by simp)
      · have h' : t.in_scopes scopes = false := by
          cases hb : t.in_scopes scopes
          · rfl
          · exact absurd hb h
        constructor
        · intro hl
          have hl' : findTokenLoop scopes rest (i0 + 1) = some i := by
            simpa [findTokenLoop, h'] using hl
          obtain ⟨k, hk, ⟨t', ht', hcov⟩, hmin⟩ := (ih (i0 + 1) i).mp hl'
          refine ⟨k + 1, by omega, ⟨t', by simpa using ht', hcov⟩, ?_⟩
          intro j t'' hj hget
          cases j with
          | zero =>
              have heq : t = t'' := by simpa using hget
              rw [← heq]
              exact h'
          | succ j' =>
              exact hmin j' t'' (by omega) (by simpa using hget)
        · rintro ⟨k, hk, ⟨t', ht', hcov⟩, hmin⟩
          cases k with
          | zero =>
              have heq : t = t' := by simpa using ht'
              rw [← heq] at hcov
              rw [h'] at hcov
              exact absurd hcov (by simp)
          | succ k' =>
              have hrest : findTokenLoop scopes rest (i0 + 1) = some i :=
                (ih (i0 + 1) i).mpr
                  ⟨k', by omega, ⟨t', by simpa using ht', hcov⟩,
                    fun j t'' hj hget => hmin (j + 1) t'' (by omega) (by simpa using hget)⟩
              simpa [findTokenLoop, h'] using hrest

/-- The fetch step always issues exactly one request. -/
theorem fetchStep_count (cache : List Token) (fetch : Option MercuryResponse) (now : Nat) :
    (fetchStep cache fetch now).2.2 = 1 := by
  cases fetch with
  | none => rfl
  | some response =>
      by_cases h : response.status_code == 200
      · cases hp : response.payload.head? with
        | none => simp [fetchStep, h, hp]
        | some p =>
            cases p with
            | malformed => simp [fetchStep, h, hp]
            | text doc =>
                cases ht : Token.new doc now with
                | none => simp [fetchStep, h, hp, ht]
                | some token => simp [fetchStep, h, hp, ht]
      · simp [fetchStep, h]

/-- The evaluator loop equals the first-decider characterization. -/
theorem allowedLoop_eq_decideRestrictions (country : String) (rs : List Restriction) :
    allowedLoop country rs = decideRestrictions country rs := by
  induction rs with
  | nil => rfl
  | cons r rest ih =>
      cases ha : r.countries_allowed with
      | some allowed_countries =>
          have hd : restrictionDecides r = true := by
            simp [restrictionDecides, ha]
          simp [allowedLoop, decideRestrictions, applyRestriction, ha, List.find?_cons, hd]
      | none =>
          cases hf : r.countries_forbidden with
          | some forbidden_countries =>
              have hd : restrictionDecides r = true := by
                simp [restrictionDecides, hf]
              simp [allowedLoop, decideRestrictions, applyRestriction, ha, hf,
                List.find?_cons, hd]
          | none =>
              have hd : restrictionDecides r = false := by
                simp [restrictionDecides, ha, hf]
              simpa [allowedLoop, decideRestrictions, ha, hf, List.find?_cons, hd] using ih

/-! ## Claim theorems -/

/-- C1: the claim states that a payload with expiresIn below 10 yields a
token whose `is_expired` is true immediately, the computation being total.
In the code, construction succeeds but `is_expired` subtracts the threshold
from the lifetime with `Duration` subtraction, which panics on underflow: at
the failing input (expiresIn 5) the expiry check is the panic value `none`
at every clock reading, never `true`. -/
theorem c1_low_lifetime_expiry_panics :
    Token.new (.val payloadLow) 0 = some tokLow ∧
    (∀ now : Nat, tokLow.is_expired now = none) ∧
    tokLow.is_expired 0 ≠ some true :=
  ⟨rfl, fun _ => rfl, by decide⟩

/-- C2 counterexample: on a success (200) response whose payload collection
is empty, `get_token` panics with the message of the `expect` call; it does
not return an error value (the claim says `InvalidResponse`) and does not
return a token. -/
theorem c2_counterexample_empty_payload_panics :
    get_token [] ["a"] (some { status_code := 200, payload := [] }) 0 =
      (.panicked "No tokens received", [], 1) ∧
    (Outcome.panicked "No tokens received" ≠ .errParse) ∧
    ∀ t : Token, Outcome.panicked "No tokens received" ≠ .ok t :=
  ⟨rfl, by decide, fun t h => Outcome.noConfusion h⟩

/-- C2 (amended): on a success (200) response reached through a cache miss,
an empty payload collection makes `get_token` panic (`No tokens received`),
a first payload element that is not valid UTF-8 makes it panic in `unwrap`,
and only a decodable body that fails to parse yields the error return
(`Err(MercuryError)`); no default token is produced in any of these cases
and the cache is unchanged. -/
theorem c2_success_bad_payload_behavior (cache : List Token) (scopes : List String)
    (resp : MercuryResponse) (now : Nat)
    (hne : scopes ≠ []) (hmiss : find_token cache scopes = none)
    (h200 : resp.status_code = 200) :
    (resp.payload = [] →
      get_token cache scopes (some resp) now = (.panicked "No tokens received", cache, 1)) ∧
    (∀ rest, resp.payload = .malformed :: rest →
      get_token cache scopes (some resp) now =
        (.panicked "called Result::unwrap on an Err value: FromUtf8Error", cache, 1)) ∧
    (∀ doc rest, resp.payload = .text doc :: rest → Token.new doc now = none →
      get_token cache scopes (some resp) now = (.errParse, cache, 1)) := by
  obtain ⟨s, ss, rfl⟩ : ∃ s ss, scopes = s :: ss := by
    cases scopes with
    | nil => exact absurd rfl hne
    | cons s ss => exact ⟨s, ss, rfl⟩
  refine ⟨?_, ?_, ?_⟩
  · intro hp
    simp [get_token, hmiss, fetchStep, h200, hp]
  · intro rest hp
    simp [get_token, hmiss, fetchStep, h200, hp]
  · intro doc rest hp hparse
    simp [get_token, hmiss, fetchStep, h200, hp, hparse]

/-- C2 witness: the amended statement applied to a concrete empty-payload
success response on an empty cache. -/
theorem c2_success_bad_payload_behavior_witness :
    get_token [] ["a"] (some { status_code := 200, payload := [] }) 1 =
      (.panicked "No tokens received", [], 1) :=
  (c2_success_bad_payload_behavior [] ["a"] { status_code := 200, payload := [] } 1
    (by simp) rfl rfl).1 rfl

/-- C3 counterexample: the cache holds an expired covering token first and an
unexpired covering token `tokB` second.  `tokB` covers the request and is
unexpired, yet `get_token` issues a fetch (request count 1) and does not
return `tokB`: the lookup is first-match, and an expired first match forces a
fetch. -/
theorem c3_counterexample_expired_first_match :
    tokB.in_scopes ["a"] = true ∧
    tokB.is_expired 10000 = some false ∧
    (get_token [tokA, tokB] ["a"] none 10000).2.2 = 1 ∧
    (get_token [tokA, tokB] ["a"] none 10000).1 ≠ .ok tokB := by
  refine ⟨rfl, rfl, rfl, ?_⟩
  decide

/-- C3 (amended): when the first covering cache entry (the one `find_token`
selects) is unexpired, `get_token` returns exactly that entry, leaves the
cache unchanged, and issues no request. -/
theorem c3_first_match_unexpired_returned (cache : List Token) (scopes : List String)
    (fetch : Option MercuryResponse) (now : Nat) (i : Nat) (t : Token)
    (hne : scopes ≠ []) (hfind : find_token cache scopes = some i)
    (hget : cache.get? i = some t) (hexp : t.is_expired now = some false) :
    get_token cache scopes fetch now = (.ok t, cache, 0) := by
  obtain ⟨s, ss, rfl⟩ : ∃ s ss, scopes = s :: ss := by
    cases scopes with
    | nil => exact absurd rfl hne
    | cons s ss => exact ⟨s, ss, rfl⟩
  have hget' : cache[i]? = some t := by
    rw [← List.get?_eq_getElem?]
    exact hget
  simp [get_token, hfind, hget', hexp]

/-- C3 witness: a concrete unexpired covering token is returned from the
cache with no fetch. -/
theorem c3_first_match_unexpired_returned_witness :
    get_token [tokB] ["a"] none 10000 = (.ok tokB, [tokB], 0) :=
  c3_first_match_unexpired_returned [tokB] ["a"] none 10000 0 tokB
    (by simp) (by decide) (by decide) (by decide)

/-- C4 counterexample: at the exact boundary `now = issued_at + lifetime - 10`
(the claim says eviction happens once `now ≥ issued_at + lifetime - 10s`),
the strict comparison in `is_expired` is false, so the token is returned from
the cache, nothing is evicted and no fetch happens. -/
theorem c4_counterexample_boundary_not_evicted :
    tokA.timestamp + tokA.expires_in - Token.EXPIRY_THRESHOLD ≤ 3590 ∧
    find_token [tokA] ["a"] = some 0 ∧
    get_token [tokA] ["a"] none 3590 = (.ok tokA, [tokA], 0) :=
  ⟨by decide, rfl, rfl⟩

/-- C4 (amended): when the matched cache entry is strictly past
`issued_at + (lifetime - 10s)` (and its lifetime is at least the threshold,
so the expiry computation does not panic), `get_token` evicts exactly that
entry and proceeds directly to the fetch step on the evicted cache - no
second lookup - issuing exactly one request. -/
theorem c4_strictly_expired_evicts_and_fetches (cache : List Token) (scopes : List String)
    (fetch : Option MercuryResponse) (now : Nat) (i : Nat) (t : Token)
    (hne : scopes ≠ []) (hfind : find_token cache scopes = some i)
    (hget : cache.get? i = some t)
    (hth : Token.EXPIRY_THRESHOLD ≤ t.expires_in)
    (hexp : t.timestamp + (t.expires_in - Token.EXPIRY_THRESHOLD) < now) :
    get_token cache scopes fetch now = fetchStep (cache.eraseIdx i) fetch now ∧
    (get_token cache scopes fetch now).2.2 = 1 := by
  obtain ⟨s, ss, rfl⟩ : ∃ s ss, scopes = s :: ss := by
    cases scopes with
    | nil => exact absurd rfl hne
    | cons s ss => exact ⟨s, ss, rfl⟩
  have hdec : decide (t.timestamp + (t.expires_in - Token.EXPIRY_THRESHOLD) < now) = true :=
    decide_eq_true hexp
  have hexp' : t.is_expired now = some true := by
    rw [Token.is_expired, if_neg (Nat.not_lt.mpr hth), hdec]
  have hget' : cache[i]? = some t := by
    rw [← List.get?_eq_getElem?]
    exact hget
  have h1 : get_token cache (s :: ss) fetch now = fetchStep (cache.eraseIdx i) fetch now := by
    simp [get_token, hfind, hget', hexp']
  exact ⟨h1, by rw [h1]; exact fetchStep_count _ _ _⟩

/-- C4 witness: a concrete strictly-expired cached token is evicted and the
call proceeds to the fetch step, issuing one request. -/
theorem c4_strictly_expired_evicts_and_fetches_witness :
    get_token [tokA] ["a"] none 10000 = fetchStep ([tokA].eraseIdx 0) none 10000 ∧
    (get_token [tokA] ["a"] none 10000).2.2 = 1 :=
  c4_strictly_expired_evicts_and_fetches [tokA] ["a"] none 10000 0 tokA
    (by simp) (by decide) (by decide) (by decide) (by decide)

/-- C5: with an empty scope list, `get_token` fails at the up-front check for
every cache state, clock reading and issuer behavior: the outcome is the
empty-scope error return, the cache is untouched, and no request is issued. -/
theorem c5_empty_scopes_rejected (cache : List Token) (fetch : Option MercuryResponse)
    (now : Nat) :
    get_token cache [] fetch now = (.errEmptyScope, cache, 0) := rfl

/-- C6: `find_token` returns `some i` exactly when the entry at index `i`
covers the requested scopes and no earlier entry does: the scan is in storage
order and first-match, with no minimality tie-break. -/
theorem c6_first_match_selection (tokens : List Token) (scopes : List String) (i : Nat) :
    find_token tokens scopes = some i ↔
      (∃ t, tokens.get? i = some t ∧ t.in_scopes scopes = true) ∧
      ∀ j t', j < i → tokens.get? j = some t' → t'.in_scopes scopes = false := by
  have h := findTokenLoop_some_iff scopes tokens 0 i
  simpa [find_token] using h

/-- A token granting scopes a and b, issued at time 0 with lifetime 3600. -/
def tokC : Token :=
  { expires_in := 3600, access_token := "C", scopes := ["a", "b"], timestamp := 0 }

/-- C6 witness: with two covering entries in the cache the earliest-inserted
one (index 0) is selected. -/
theorem c6_first_match_selection_witness :
    find_token [tokA, tokC] ["a"] = some 0 :=
  (c6_first_match_selection [tokA, tokC] ["a"] 0).mpr
    ⟨⟨tokA, rfl, rfl⟩, fun j _ hj _ => absurd hj (Nat.not_lt_zero j)⟩

/-- C7: the round-trip on the valid payload with expiresIn 3600, accessToken
abc and scopes a, b: construction succeeds, the token covers the singleton a
and the pair a, b, does not cover c, and is unexpired immediately after
construction (at the construction instant itself). -/
theorem c7_round_trip_valid_payload :
    ∃ t : Token, Token.new (.val payloadGood) 0 = some t ∧
      t.in_scopes ["a"] = true ∧
      t.in_scopes ["a", "b"] = true ∧
      t.in_scopes ["c"] = false ∧
      t.is_expired 0 = some false :=
  ⟨tokGood, rfl, rfl, rfl, rfl, rfl⟩

/-- C8: a response with a non-success status makes the fetch step return the
request-failed error with the cache unchanged after exactly one request -
the payload is never inspected, nothing is inserted, and there is no retry;
consequently a `get_token` call that reaches the fetch through a cache miss
returns that error with the whole cache unchanged. -/
theorem c8_non_success_maps_to_request_failed (cache : List Token) (scopes : List String)
    (resp : MercuryResponse) (now : Nat) (hstatus : resp.status_code ≠ 200) :
    fetchStep cache (some resp) now = (.errRequestFailed, cache, 1) ∧
    (scopes ≠ [] → find_token cache scopes = none →
      get_token cache scopes (some resp) now = (.errRequestFailed, cache, 1)) := by
  have hfetch : fetchStep cache (some resp) now = (.errRequestFailed, cache, 1) := by
    simp [fetchStep, hstatus]
  refine ⟨hfetch, fun hne hmiss => ?_⟩
  obtain ⟨s, ss, rfl⟩ : ∃ s ss, scopes = s :: ss := by
    cases scopes with
    | nil => exact absurd rfl hne
    | cons s ss => exact ⟨s, ss, rfl⟩
  simp [get_token, hmiss, hfetch]

/-- A non-success response carrying a (never inspected) payload. -/
def respFail : MercuryResponse := { status_code := 500, payload := [.text .invalid] }

/-- C8 witness: a concrete 500 response yields the request-failed error with
one request and an unchanged cache. -/
theorem c8_non_success_maps_to_request_failed_witness :
    get_token [] ["a"] (some respFail) 0 = (.errRequestFailed, [], 1) :=
  (c8_non_success_maps_to_request_failed [] ["a"] respFail 0 (by decide)).2 (by simp) rfl

/-- C9: scope containment with an empty request is vacuously true for every
token, so on any non-empty cache `find_token` with an empty request selects
index 0; only the up-front empty-scope rejection keeps `get_token` from
returning such a match. -/
theorem c9_empty_request_vacuously_covered (t : Token) (cache : List Token)
    (fetch : Option MercuryResponse) (now : Nat) (hne : cache ≠ []) :
    t.in_scopes [] = true ∧
    find_token cache [] = some 0 ∧
    get_token cache [] fetch now = (.errEmptyScope, cache, 0) := by
  obtain ⟨c, cs, rfl⟩ : ∃ c cs, cache = c :: cs := by
    cases cache with
    | nil => exact absurd rfl hne
    | cons c cs => exact ⟨c, cs, rfl⟩
  exact ⟨rfl, rfl, rfl⟩

/-- C9 witness: the vacuous-cover facts at a concrete token and cache. -/
theorem c9_empty_request_vacuously_covered_witness :
    tokA.in_scopes [] = true ∧
    find_token [tokA] [] = some 0 ∧
    get_token [tokA] [] none 0 = (.errEmptyScope, [tokA], 0) :=
  c9_empty_request_vacuously_covered tokA [tokA] none 0 (by simp)

/-- C10 counterexample: the user has no catalogue attribute (so catalogue
premium); the first catalogue-matching restriction carries neither whitelist
nor blacklist, yet the outcome (Blacklisted) is decided by the second
matching restriction - so the first matching restriction does not decide
alone and later restrictions are consulted. -/
theorem c10_counterexample_later_restriction_consulted :
    catalogueMatches (userCatalogue { country := "US", attributes := [] }) rNoLists = true ∧
    rNoLists.countries_allowed = none ∧
    rNoLists.countries_forbidden = none ∧
    allowed_for_user { country := "US", attributes := [] } [rNoLists, rBlacklistUS] =
      .error .blacklisted :=
  ⟨rfl, rfl, rfl, rfl⟩

/-- C10 (amended): a missing catalogue attribute defaults to premium, and the
evaluation equals the first-decider rule over the catalogue-matching
restrictions: the first matching restriction that carries a whitelist or a
blacklist decides (whitelist: allowed iff the country is listed, else
NotWhitelisted; blacklist: Blacklisted iff the country is listed, else
allowed); matching restrictions with neither list are skipped, and with no
deciding restriction the item is allowed. -/
theorem c10_first_decider_evaluation (ud : UserData) (rs : List Restriction) :
    allowed_for_user ud rs =
      decideRestrictions ud.country (rs.filter (catalogueMatches (userCatalogue ud))) ∧
    (lookupAttr ud.attributes "catalogue" = none → userCatalogue ud = "premium") := by
  refine ⟨?_, fun h => ?_⟩
  · simp only [allowed_for_user]
    exact allowedLoop_eq_decideRestrictions ud.country _
  · simp [userCatalogue, h]

/-- C10 witness: the amended statement applied to a concrete attribute-free
user and a single blacklist restriction. -/
theorem c10_first_decider_evaluation_witness :
    allowed_for_user { country := "CA", attributes := [] } [rBlacklistUS] =
      decideRestrictions "CA"
        ([rBlacklistUS].filter
          (catalogueMatches (userCatalogue { country := "CA", attributes := [] }))) ∧
    userCatalogue { country := "CA", attributes := [] } = "premium" :=
  ⟨(c10_first_decider_evaluation { country := "CA", attributes := [] } [rBlacklistUS]).1,
   (c10_first_decider_evaluation { country := "CA", attributes := [] } [rBlacklistUS]).2 rfl⟩
